import Mathlib

/-
Shallow embedding of the block/pipeline evaluator of jntrnr/enginep
(src/src/evaluate/block.rs: run_block, run_pipeline) together with the
state it mutates (scope frames, the shared error sink, the cancellation
flag).  External collaborators (run_expression_block, run_internal_command,
ctx.run_command on the autoview command, the command registry) are not part
of the source fragment; they are modelled as an oracle environment Env that
may append errors to the sink and set the cancellation flag, which are the
only structures the spec allows outsiders to write.  Streams are modelled
as lists: a ValueIterator is a list of values, an OutputStream a list of
result-wrapped values.  Recursion through Dynamic calls is unbounded in the
source, so the embedding takes a fuel parameter; exhausting it yields the
out-of-fuel outcome RRes.oof, and the Rust panic on indexing value[0] of an
empty argument vector is the outcome RRes.crashed.  A ghost trace field
records each oracle invocation (with the input stream it received) and each
pipeline start, so that claims about what is and is not executed are
observable.
-/

namespace EngineP

/-- ShellError::labeled_error msg label span (nu_errors::ShellError). -/
structure ShellError where
  msg : String
  label : String
  span : Nat
deriving DecidableEq, Repr

def labeled_error (msg label : String) (span : Nat) : ShellError :=
  ⟨msg, label, span⟩

mutual

/-- nu_protocol UntaggedValue: the payload of a value; the evaluator
distinguishes Error payloads (in-band errors) and Block payloads
(captured closures); all other payloads are opaque primitives. -/
inductive UntaggedValue : Type where
  | errorV (e : ShellError)
  | blockV (cb : CapturedBlock)
  | prim (n : Nat)

/-- nu_protocol Value: an untagged value with its tag. -/
inductive Value : Type where
  | mk (value : UntaggedValue) (tag : Nat)

/-- A closure value: a block plus captured environment entries. -/
inductive CapturedBlock : Type where
  | mk (block : Block) (captured : List (String × Value))

/-- hir Expression, restricted to the constructors run_pipeline matches on:
an inline block literal, a variable reference (with its span), and an
opaque catch-all for every other expression shape. -/
inductive Expression : Type where
  | blk (b : Block)
  | var (name : String) (span : Nat)
  | other (id : Nat)

/-- hir Call for a Dynamic node: head expression, head span, and the
positional argument expressions (opaque handles resolved by the oracle). -/
inductive Call : Type where
  | mk (head : Expression) (headSpan : Nat) (positional : Option (List Nat))

/-- hir ClassifiedCommand: Dynamic / Expr / Error / Internal.  Expr and
Internal arguments are opaque handles interpreted by the oracle. -/
inductive ClassifiedCommand : Type where
  | dynamic (call : Call)
  | expr (id : Nat)
  | errorCmd (e : ShellError)
  | internal (id : Nat)

/-- hir Pipeline: the ordered list of command nodes. -/
inductive Pipeline : Type where
  | mk (list : List ClassifiedCommand)

/-- hir Group: the ordered list of pipelines. -/
inductive Group : Type where
  | mk (pipelines : List Pipeline)

/-- hir Block: positional parameter names, hoisted definition names
(definition bodies are only observable through the scope's command table,
so only their names are kept), and the list of groups (field block.block
in the source). -/
inductive Block : Type where
  | mk (params : List String) (definitions : List String) (groups : List Group)

end

def Value.value : Value → UntaggedValue
  | .mk v _ => v

def Value.tag : Value → Nat
  | .mk _ t => t

def CapturedBlock.block : CapturedBlock → Block
  | .mk b _ => b

def CapturedBlock.captured : CapturedBlock → List (String × Value)
  | .mk _ c => c

def Call.head : Call → Expression
  | .mk h _ _ => h

def Call.headSpan : Call → Nat
  | .mk _ s _ => s

def Call.positional : Call → Option (List Nat)
  | .mk _ _ p => p

def Pipeline.list : Pipeline → List ClassifiedCommand
  | .mk l => l

def Group.pipelines : Group → List Pipeline
  | .mk ps => ps

def Block.params : Block → List String
  | .mk p _ _ => p

def Block.definitions : Block → List String
  | .mk _ d _ => d

/-- The source field block.block: the groups of the block. -/
def Block.block : Block → List Group
  | .mk _ _ g => g

/-- A ValueIterator is a (materialised) lazy stream of values. -/
abbrev ValueIterator := List Value

/-- An OutputStream carries result-wrapped items: a pull either produces a
value or fails with a propagation error. -/
abbrev OutputStream := List (Except ShellError Value)

def empty_value_iterator : ValueIterator := []

/-- InputStream::to_output_stream: every value becomes a successful item. -/
def to_output_stream (s : ValueIterator) : OutputStream := s.map Except.ok

/-- into_vec on a ValueIterator: collect all values. -/
def into_vec (s : ValueIterator) : List Value := s

/-- try_next / next on an OutputStream: pull the first item. -/
def try_next (s : OutputStream) : Except ShellError (Option Value) :=
  match s with
  | [] => .ok none
  | .ok v :: _ => .ok (some v)
  | .error e :: _ => .error e

/-- Whether a stream item is an in-band error value
(ReturnSuccess::Value whose UntaggedValue is Error). -/
def isErrorValue (v : Value) : Bool :=
  match v.value with
  | .errorV _ => true
  | _ => false

/-- One scope frame: variable bindings and command definitions. -/
structure Frame where
  vars : List (String × Value) := []
  defs : List String := []

/-- Ghost trace events: one per oracle invocation (recording the input
stream handed over) and one per pipeline started by run_block. -/
inductive Event : Type where
  | exprEval (id : Nat)
  | internalCmd (id : Nat) (input : ValueIterator)
  | autoviewRun (input : ValueIterator)
  | pipelineStart

/-- The mutable evaluation state threaded through the evaluator: the scope
frame stack (innermost first), the shared error sink, the cancellation
flag, and the ghost trace. -/
structure EvalState where
  frames : List Frame
  errors : List ShellError
  ctrl_c : Bool
  trace : List Event

/-- Outcome of one oracle call: its returned Result, the errors it appended
to the shared sink, and whether it set the cancellation flag.  Per the
spec, the sink and the flag are the only state outsiders may write. -/
structure ExtResult (α : Type) where
  result : Except ShellError α
  newErrors : List ShellError := []
  setCtrlC : Bool := false

/-- The oracle environment for the external collaborators. -/
structure Env where
  run_expression_block : Nat → ExtResult ValueIterator
  run_internal_command : Nat → ValueIterator → ExtResult ValueIterator
  run_command : ValueIterator → ExtResult OutputStream
  hasCommand : String → Bool

/-- Fold an oracle call's side effects into the state, recording the event. -/
def extState {α : Type} (st : EvalState) (ev : Event) (r : ExtResult α) : EvalState :=
  { st with
    errors := st.errors ++ r.newErrors
    ctrl_c := st.ctrl_c || r.setCtrlC
    trace := st.trace ++ [ev] }

def pushEv (ev : Event) (st : EvalState) : EvalState :=
  { st with trace := st.trace ++ [ev] }

/-- Scope::enter_scope: push a fresh frame. -/
def enter_scope (st : EvalState) : EvalState :=
  { st with frames := ⟨[], []⟩ :: st.frames }

/-- Scope::exit_scope: pop the innermost frame. -/
def exit_scope (st : EvalState) : EvalState :=
  { st with frames := st.frames.tail }

/-- Scope::add_var: bind in the innermost frame (newest binding shadows). -/
def add_var (name : String) (v : Value) (st : EvalState) : EvalState :=
  match st.frames with
  | [] => st
  | f :: rest => { st with frames := { f with vars := (name, v) :: f.vars } :: rest }

/-- Scope::add_vars: install every entry of a captured environment. -/
def add_vars (entries : List (String × Value)) (st : EvalState) : EvalState :=
  entries.foldl (fun s p => add_var p.1 p.2 s) st

/-- Scope::get_var: innermost-to-outermost lookup. -/
def lookupFrames (name : String) : List Frame → Option Value
  | [] => none
  | f :: rest =>
      match f.vars.lookup name with
      | some v => some v
      | none => lookupFrames name rest

def get_var (name : String) (st : EvalState) : Option Value :=
  lookupFrames name st.frames

/-- Scope::add_definition: record a hoisted definition in the innermost
frame's command table. -/
def add_definition (name : String) (st : EvalState) : EvalState :=
  match st.frames with
  | [] => st
  | f :: rest => { st with frames := { f with defs := name :: f.defs } :: rest }

def addDefinitions (names : List String) (st : EvalState) : EvalState :=
  names.foldl (fun s n => add_definition n s) st

/-- Scope::get_command: a command is found if some frame defines it or the
registry has it. -/
def get_command (env : Env) (st : EvalState) (name : String) : Bool :=
  st.frames.any (fun f => f.defs.contains name) || env.hasCommand name

/-- Outcome of a checkpoint: abort run_block with a result, or continue. -/
inductive Check : Type where
  | early (r : Except ShellError ValueIterator) (st : EvalState)
  | cont (st : EvalState)

def Check.state : Check → EvalState
  | .early _ st => st
  | .cont st => st

/-- The checkpoint at the top of the group loop (block.rs lines 24-80):
inspect the previous group's output; if non-empty and autoview is
registered, run autoview on it and inspect the first item of autoview's
output stream, then drain the sink / poll cancellation. -/
def groupCheckpoint (env : Env) (output : Except ShellError ValueIterator)
    (st : EvalState) : Check :=
  match output with
  | .error e => .early (.error e) st
  | .ok inp =>
      if inp.isEmpty then .cont st
      else if get_command env st "autoview" then
        let er := env.run_command inp
        let st1 := extState st (.autoviewRun inp) er
        match er.result with
        | .error e => .early (.error e) st1
        | .ok ostream =>
            match try_next ostream with
            | .error e => .early (.error e) st1
            | .ok (some v) =>
                match v.value with
                | .errorV e => .early (.error e) st1
                | _ =>
                    match st1.errors with
                    | err :: _ => .early (.error err) { st1 with errors := [] }
                    | [] =>
                        if st1.ctrl_c then .early (.ok empty_value_iterator) st1
                        else .cont st1
            | .ok none =>
                match st1.errors with
                | err :: _ => .early (.error err) { st1 with errors := [] }
                | [] => .cont st1
      else .cont st

/-- The checkpoint at the top of the pipeline loop (block.rs lines 83-123):
same three-way inspection of the previous pipeline's output, without the
autoview call. -/
def pipelineCheckpoint (output : Except ShellError ValueIterator)
    (st : EvalState) : Check :=
  match output with
  | .error e => .early (.error e) st
  | .ok inp =>
      if inp.isEmpty then .cont st
      else
        match try_next (to_output_stream inp) with
        | .error e => .early (.error e) st
        | .ok (some v) =>
            match v.value with
            | .errorV e => .early (.error e) st
            | _ =>
                match st.errors with
                | err :: _ => .early (.error err) { st with errors := [] }
                | [] =>
                    if st.ctrl_c then .early (.ok empty_value_iterator) st
                    else .cont st
        | .ok none =>
            match st.errors with
            | err :: _ => .early (.error err) { st with errors := [] }
            | [] => .cont st

/-- Eager evaluation of the positional argument expressions of a Dynamic
call (block.rs lines 142-148); each is collected with into_vec, and an
evaluation error returns immediately from run_pipeline. -/
def evalArgs (env : Env) : List Nat → EvalState →
    Except ShellError (List (List Value)) × EvalState
  | [], st => (.ok [], st)
  | id :: rest, st =>
      let er := env.run_expression_block id
      let st1 := extState st (.exprEval id) er
      match er.result with
      | .error e => (.error e, st1)
      | .ok vals =>
          match evalArgs env rest st1 with
          | (.error e, st2) => (.error e, st2)
          | (.ok vss, st2) => (.ok (into_vec vals :: vss), st2)

def evalPositional (env : Env) : Option (List Nat) → EvalState →
    Except ShellError (List (List Value)) × EvalState
  | none, st => (.ok [], st)
  | some ids, st => evalArgs env ids st

/-- Bind the declared positional parameters to the evaluated arguments,
zipped in declaration order (block.rs lines 153-155 and 168-176); each
parameter receives element 0 of its argument vector, and an empty vector
makes the source's value[0] indexing panic, modelled as none. -/
def bindParams : List String → List (List Value) → EvalState → Option EvalState
  | p :: ps, a :: rest, st =>
      match a with
      | [] => none
      | v :: _ => bindParams ps rest (add_var p v st)
  | _, _, st => some st

/-- Result of running a piece of the evaluator: a value with the final
state, out of fuel (model artifact for the source's unbounded recursion),
or the Rust panic on value[0] of an empty argument vector. -/
inductive RRes (α : Type) : Type where
  | ok (val : α) (st : EvalState)
  | oof
  | crashed

/-- Outcome of the pipeline loop of one group: an early return aborting
run_block, or normal completion with the final output and the threaded
input stream. -/
inductive PipeLoopOut : Type where
  | early (r : Except ShellError ValueIterator)
  | done (output : Except ShellError ValueIterator) (input : ValueIterator)

mutual

/-- run_block (block.rs lines 13-131): hoist definitions, then run every
group, checkpointing the previous output at each group boundary. -/
def run_block (env : Env) (fuel : Nat) (b : Block) (input : ValueIterator)
    (st : EvalState) : RRes (Except ShellError ValueIterator) :=
  match fuel with
  | 0 => .oof
  | fuel + 1 =>
      runGroups env fuel b.block (.ok empty_value_iterator) input
        (addDefinitions b.definitions st)

/-- The group loop of run_block (lines 24-128). -/
def runGroups (env : Env) (fuel : Nat) (gs : List Group)
    (output : Except ShellError ValueIterator) (input : ValueIterator)
    (st : EvalState) : RRes (Except ShellError ValueIterator) :=
  match fuel with
  | 0 => .oof
  | fuel + 1 =>
      match gs with
      | [] => .ok output st
      | g :: rest =>
          match groupCheckpoint env output st with
          | .early r st1 => .ok r st1
          | .cont st1 =>
              match runPipelines env fuel g.pipelines (.ok empty_value_iterator)
                  input st1 with
              | .ok (.early r) st2 => .ok r st2
              | .ok (.done out inp2) st2 => runGroups env fuel rest out inp2 st2
              | .oof => .oof
              | .crashed => .crashed

/-- The pipeline loop of one group (lines 82-127): checkpoint the previous
pipeline's output, run the pipeline, then clear the threaded input so only
the very first pipeline ever sees the external input. -/
def runPipelines (env : Env) (fuel : Nat) (ps : List Pipeline)
    (output : Except ShellError ValueIterator) (input : ValueIterator)
    (st : EvalState) : RRes PipeLoopOut :=
  match fuel with
  | 0 => .oof
  | fuel + 1 =>
      match ps with
      | [] => .ok (.done output input) st
      | p :: rest =>
          match pipelineCheckpoint output st with
          | .early r st1 => .ok (.early r) st1
          | .cont st1 =>
              match run_pipeline env fuel p.list input (pushEv .pipelineStart st1) with
              | .ok r st2 => runPipelines env fuel rest r empty_value_iterator st2
              | .oof => .oof
              | .crashed => .crashed

/-- run_pipeline (block.rs lines 133-211): thread the input through each
command node; a Dynamic node evaluates its arguments, resolves its head to
a closure, binds parameters in a fresh scope frame, runs the closure body
with run_block, pops the frame, and returns the body's result immediately. -/
def run_pipeline (env : Env) (fuel : Nat) (cmds : List ClassifiedCommand)
    (input : ValueIterator) (st : EvalState) :
    RRes (Except ShellError ValueIterator) :=
  match fuel with
  | 0 => .oof
  | fuel + 1 =>
      match cmds with
      | [] => .ok (.ok input) st
      | item :: rest =>
          match item with
          | .expr id =>
              let er := env.run_expression_block id
              let st1 := extState st (.exprEval id) er
              match er.result with
              | .error e => .ok (.error e) st1
              | .ok vals => run_pipeline env fuel rest vals st1
          | .internal id =>
              let er := env.run_internal_command id input
              let st1 := extState st (.internalCmd id input) er
              match er.result with
              | .error e => .ok (.error e) st1
              | .ok vals => run_pipeline env fuel rest vals st1
          | .errorCmd e => .ok (.error e) st
          | .dynamic call =>
              match evalPositional env call.positional st with
              | (.error e, st1) => .ok (.error e) st1
              | (.ok args, st1) =>
                  match call.head with
                  | .blk b =>
                      match bindParams b.params args (enter_scope st1) with
                      | none => .crashed
                      | some st2 =>
                          match run_block env fuel b input st2 with
                          | .ok r st3 => .ok r (exit_scope st3)
                          | .oof => .oof
                          | .crashed => .crashed
                  | .var v span =>
                      match get_var v st1 with
                      | some value =>
                          match value.value with
                          | .blockV cb =>
                              match bindParams cb.block.params args
                                  (add_vars cb.captured (enter_scope st1)) with
                              | none => .crashed
                              | some st2 =>
                                  match run_block env fuel cb.block input st2 with
                                  | .ok r st3 => .ok r (exit_scope st3)
                                  | .oof => .oof
                                  | .crashed => .crashed
                          | _ =>
                              .ok (.error (labeled_error
                                "Dynamic commands must start with a block (or variable pointing to a block)"
                                "needs to be a block" call.headSpan)) st1
                      | none =>
                          .ok (.error (labeled_error "Variable not found"
                            "variable not found" span)) st1
                  | .other _ =>
                      .ok (.error (labeled_error
                        "Dynamic commands must start with a block (or variable pointing to a block)"
                        "needs to be a block" call.headSpan)) st1
end

/-- Result component of a finished run, if any. -/
def RRes.resOf {α : Type} : RRes α → Option α
  | .ok r _ => some r
  | _ => none

/-- Final state of a finished run, if any. -/
def RRes.stateOf {α : Type} : RRes α → Option EvalState
  | .ok _ st => some st
  | _ => none

/-- Concrete errors and values used by the concrete runs below. -/
def e0 : ShellError := ⟨"boom", "boom label", 3⟩

def eSink : ShellError := ⟨"sunk", "sunk label", 4⟩

def errVal : Value := .mk (.errorV e0) 0

def v5 : Value := .mk (.prim 5) 0

/-- A base state: one (global) scope frame, empty sink, flag clear. -/
def st0 : EvalState := ⟨[⟨[], []⟩], [], false, []⟩

/-- Like st0 but with the cancellation flag already set. -/
def st0c : EvalState := ⟨[⟨[], []⟩], [], true, []⟩

/-- A concrete oracle environment: expression 0 produces an in-band error
value, expression 1 a plain value, expression 2 an empty stream; internal
command 0 produces a value while appending an error to the sink, internal
command 1 a plain value, internal command 2 echoes its input, internal
command 3 produces an empty stream while appending a sink error, internal
command 5 produces an empty stream; no autoview is registered. -/
def envA : Env :=
  { run_expression_block := fun id =>
      if id == 0 then { result := .ok [errVal] }
      else if id == 1 then { result := .ok [v5] }
      else if id == 2 then { result := .ok [] }
      else { result := .ok [] }
    run_internal_command := fun id inp =>
      if id == 0 then { result := .ok [v5], newErrors := [eSink] }
      else if id == 1 then { result := .ok [v5] }
      else if id == 2 then { result := .ok inp }
      else if id == 3 then { result := .ok [], newErrors := [eSink] }
      else { result := .ok [] }
    run_command := fun _ => { result := .ok [] }
    hasCommand := fun _ => false }

/-- A concrete environment with an autoview command registered; autoview
consumes its input, produces no output, and appends a sink error. -/
def envB : Env :=
  { run_expression_block := fun _ => { result := .ok [v5] }
    run_internal_command := fun _ _ => { result := .ok [v5] }
    run_command := fun _ => { result := .ok [], newErrors := [eSink] }
    hasCommand := fun n => n == "autoview" }

/-- A concrete environment with autoview registered whose autoview call
produces one plain item and touches nothing else. -/
def envC : Env :=
  { run_expression_block := fun _ => { result := .ok [v5] }
    run_internal_command := fun _ _ => { result := .ok [v5] }
    run_command := fun _ => { result := .ok [.ok v5] }
    hasCommand := fun n => n == "autoview" }

/-- A concrete environment with autoview registered whose autoview call
produces one plain item while appending an error to the sink. -/
def envD : Env :=
  { run_expression_block := fun _ => { result := .ok [v5] }
    run_internal_command := fun _ _ => { result := .ok [v5] }
    run_command := fun _ => { result := .ok [.ok v5], newErrors := [eSink] }
    hasCommand := fun n => n == "autoview" }


/-- Body block used by the closure-invocation witnesses: one group, one
pipeline, evaluating expression 1. -/
def Bbody : Block := .mk [] [] [.mk [.mk [.expr 1]]]

/-- A state whose global frame binds g to a closure over Bbody that
captured the binding k = v5. -/
def st5 : EvalState :=
  ⟨[⟨[("g", .mk (.blockV (.mk Bbody [("k", v5)])) 0)], []⟩], [], false, []⟩

/-- The state in which the C5 variable-head closure body finishes. -/
def stC5v : EvalState :=
  ⟨[⟨[("k", v5)], []⟩, ⟨[("g", .mk (.blockV (.mk Bbody [("k", v5)])) 0)], []⟩], [], false,
    [.pipelineStart, .exprEval 1]⟩

@[simp] theorem Value.value_mk (v t) : (Value.mk v t).value = v := rfl
@[simp] theorem Value.tag_mk (v t) : (Value.mk v t).tag = t := rfl
@[simp] theorem CapturedBlock.cb_block_mk (b c) : (CapturedBlock.mk b c).block = b := rfl
@[simp] theorem CapturedBlock.captured_mk (b c) : (CapturedBlock.mk b c).captured = c := rfl
@[simp] theorem Call.head_mk (h s p) : (Call.mk h s p).head = h := rfl
@[simp] theorem Call.headSpan_mk (h s p) : (Call.mk h s p).headSpan = s := rfl
@[simp] theorem Call.positional_mk (h s p) : (Call.mk h s p).positional = p := rfl
@[simp] theorem Pipeline.list_mk (l) : (Pipeline.mk l).list = l := rfl
@[simp] theorem Group.pipelines_mk (ps) : (Group.mk ps).pipelines = ps := rfl
@[simp] theorem Block.params_mk (p d g) : (Block.mk p d g).params = p := rfl
@[simp] theorem Block.definitions_mk (p d g) : (Block.mk p d g).definitions = d := rfl
@[simp] theorem Block.blk_groups_mk (p d g) : (Block.mk p d g).block = g := rfl

@[simp] theorem Check.state_early (r st) : (Check.early r st).state = st := rfl
@[simp] theorem Check.state_cont (st) : (Check.cont st).state = st := rfl


@[simp] theorem RRes.resOf_ok {α : Type} (r : α) (st) : RRes.resOf (.ok r st) = some r := rfl
@[simp] theorem RRes.stateOf_ok {α : Type} (r : α) (st) : RRes.stateOf (.ok r st) = some st := rfl

theorem add_vars_cons (p : String × Value) (rest : List (String × Value)) (st) :
    add_vars (p :: rest) st = add_vars rest (add_var p.1 p.2 st) := rfl

theorem addDefinitions_cons (n : String) (rest : List String) (st) :
    addDefinitions (n :: rest) st = addDefinitions rest (add_definition n st) := rfl

theorem pipelineCheckpoint_error (e : ShellError) (st : EvalState) :
    pipelineCheckpoint (.error e) st = .early (.error e) st := rfl

theorem pipelineCheckpoint_empty (st : EvalState) :
    pipelineCheckpoint (.ok empty_value_iterator) st = .cont st := rfl

theorem pipelineCheckpoint_inband (v : Value) (s : ValueIterator) (st : EvalState)
    (e : ShellError) (hv : v.value = .errorV e) :
    pipelineCheckpoint (.ok (v :: s)) st = .early (.error e) st := by
  simp [pipelineCheckpoint, to_output_stream, try_next, hv]

theorem pipelineCheckpoint_nonerror (v : Value) (s : ValueIterator) (st : EvalState)
    (hv : isErrorValue v = false) :
    pipelineCheckpoint (.ok (v :: s)) st =
      match st.errors with
      | err :: _ => .early (.error err) { st with errors := [] }
      | [] =>
          if st.ctrl_c then .early (.ok empty_value_iterator) st else .cont st := by
  unfold pipelineCheckpoint
  cases hval : v.value with
  | errorV e => simp [isErrorValue, hval] at hv
  | blockV cb => simp [to_output_stream, try_next, hval]
  | prim n => simp [to_output_stream, try_next, hval]

theorem groupCheckpoint_error (env : Env) (e : ShellError) (st : EvalState) :
    groupCheckpoint env (.error e) st = .early (.error e) st := rfl

theorem groupCheckpoint_empty (env : Env) (st : EvalState) :
    groupCheckpoint env (.ok empty_value_iterator) st = .cont st := rfl

theorem groupCheckpoint_unregistered (env : Env) (s : ValueIterator) (st : EvalState)
    (hne : s.isEmpty = false) (hreg : get_command env st "autoview" = false) :
    groupCheckpoint env (.ok s) st = .cont st := by
  unfold groupCheckpoint
  simp [hne, hreg]

theorem groupCheckpoint_autoview_cancel (env : Env) (w : Value) (ws : ValueIterator)
    (st : EvalState) (os : OutputStream) (ne : List ShellError) (cc : Bool) (v : Value)
    (hreg : get_command env st "autoview" = true)
    (hcmd : env.run_command (w :: ws) = ⟨.ok os, ne, cc⟩)
    (htn : try_next os = .ok (some v))
    (hv : isErrorValue v = false)
    (hsink : st.errors ++ ne = [])
    (hcc : (st.ctrl_c || cc) = true) :
    groupCheckpoint env (.ok (w :: ws)) st = .early (.ok empty_value_iterator)
      { st with
        errors := []
        ctrl_c := true
        trace := st.trace ++ [.autoviewRun (w :: ws)] } := by
  simp only [groupCheckpoint]
  rw [hreg]
  cases hval : v.value with
  | errorV e => simp [isErrorValue, hval] at hv
  | blockV cb => simp [hcmd, extState, htn, hval, hsink, hcc]
  | prim n => simp [hcmd, extState, htn, hval, hsink, hcc]

theorem extState_frames {α : Type} (st : EvalState) (ev : Event) (r : ExtResult α) :
    (extState st ev r).frames = st.frames := rfl

theorem pushEv_frames (ev : Event) (st : EvalState) : (pushEv ev st).frames = st.frames := rfl

theorem exit_scope_frames (st : EvalState) : (exit_scope st).frames = st.frames.tail := rfl

theorem add_var_frames (n : String) (v : Value) (st : EvalState) :
    (add_var n v st).frames.length = st.frames.length ∧
    (add_var n v st).frames.drop 1 = st.frames.drop 1 := by
  unfold add_var
  split <;> simp_all

theorem add_vars_frames (es : List (String × Value)) : ∀ st : EvalState,
    (add_vars es st).frames.length = st.frames.length ∧
    (add_vars es st).frames.drop 1 = st.frames.drop 1 := by
  induction es with
  | nil => intro st; exact ⟨rfl, rfl⟩
  | cons p rest ih =>
      intro st
      have h1 := add_var_frames p.1 p.2 st
      have h2 := ih (add_var p.1 p.2 st)
      rw [add_vars_cons]
      exact ⟨h2.1.trans h1.1, h2.2.trans h1.2⟩

theorem add_definition_frames (n : String) (st : EvalState) :
    (add_definition n st).frames.length = st.frames.length ∧
    (add_definition n st).frames.drop 1 = st.frames.drop 1 := by
  unfold add_definition
  split <;> simp_all

theorem addDefinitions_frames (ns : List String) : ∀ st : EvalState,
    (addDefinitions ns st).frames.length = st.frames.length ∧
    (addDefinitions ns st).frames.drop 1 = st.frames.drop 1 := by
  induction ns with
  | nil => intro st; exact ⟨rfl, rfl⟩
  | cons n rest ih =>
      intro st
      have h1 := add_definition_frames n st
      have h2 := ih (add_definition n st)
      rw [addDefinitions_cons]
      exact ⟨h2.1.trans h1.1, h2.2.trans h1.2⟩

theorem bindParams_frames : ∀ (ps : List String) (vss : List (List Value))
    (st st2 : EvalState), bindParams ps vss st = some st2 →
    st2.frames.length = st.frames.length ∧ st2.frames.drop 1 = st.frames.drop 1 := by
  intro ps
  induction ps with
  | nil =>
      intro vss st st2 h
      simp only [bindParams] at h
      cases h
      exact ⟨rfl, rfl⟩
  | cons p rest ih =>
      intro vss st st2 h
      cases vss with
      | nil =>
          simp only [bindParams] at h
          cases h
          exact ⟨rfl, rfl⟩
      | cons a vrest =>
          simp only [bindParams] at h
          cases a with
          | nil => cases h
          | cons v vs =>
              have h1 := add_var_frames p v st
              have h2 := ih vrest (add_var p v st) st2 h
              exact ⟨h2.1.trans h1.1, h2.2.trans h1.2⟩

theorem evalArgs_frames (env : Env) : ∀ (ids : List Nat) (st : EvalState),
    ((evalArgs env ids st).2).frames = st.frames := by
  intro ids
  induction ids with
  | nil => intro st; rfl
  | cons id rest ih =>
      intro st
      simp only [evalArgs]
      split
      · rfl
      · split
        next e st2 heq =>
          have := ih (extState st (.exprEval id) (env.run_expression_block id))
          rw [heq] at this
          exact this
        next vss st2 heq =>
          have := ih (extState st (.exprEval id) (env.run_expression_block id))
          rw [heq] at this
          exact this

theorem evalPositional_frames (env : Env) (o : Option (List Nat)) (st : EvalState) :
    ((evalPositional env o st).2).frames = st.frames := by
  cases o with
  | none => rfl
  | some ids => exact evalArgs_frames env ids st

theorem pipelineCheckpoint_state_frames (out : Except ShellError ValueIterator)
    (st : EvalState) : ((pipelineCheckpoint out st).state).frames = st.frames := by
  unfold pipelineCheckpoint
  repeat' split
  all_goals rfl

theorem groupCheckpoint_state_frames (env : Env) (out : Except ShellError ValueIterator)
    (st : EvalState) : ((groupCheckpoint env out st).state).frames = st.frames := by
  unfold groupCheckpoint
  dsimp only
  repeat' split
  all_goals rfl




theorem frames_main (env : Env) : ∀ fuel : Nat,
    (∀ b inp st r st', run_block env fuel b inp st = .ok r st' →
        st'.frames.length = st.frames.length ∧
        st'.frames.drop 1 = st.frames.drop 1) ∧
    (∀ gs out inp st r st', runGroups env fuel gs out inp st = .ok r st' →
        st'.frames = st.frames) ∧
    (∀ ps out inp st r st', runPipelines env fuel ps out inp st = .ok r st' →
        st'.frames = st.frames) ∧
    (∀ cs inp st r st', run_pipeline env fuel cs inp st = .ok r st' →
        st'.frames = st.frames) := by
  intro fuel
  induction fuel with
  | zero =>
      refine ⟨?_, ?_, ?_, ?_⟩
      · intro b inp st r st' h; simp [run_block] at h
      · intro gs out inp st r st' h; simp [runGroups] at h
      · intro ps out inp st r st' h; simp [runPipelines] at h
      · intro cs inp st r st' h; simp [run_pipeline] at h
  | succ f ih =>
      obtain ⟨ihb, ihg, ihps, ihp⟩ := ih
      refine ⟨?_, ?_, ?_, ?_⟩
      · -- run_block: definitions are added to the innermost frame, then the
        -- group loop preserves the frame stack exactly
        intro b inp st r st' h
        simp only [run_block] at h
        have hg := ihg _ _ _ _ _ _ h
        rw [hg]
        exact addDefinitions_frames b.definitions st
      · -- group loop
        intro gs out inp st r st' h
        cases gs with
        | nil =>
            simp only [runGroups] at h
            cases h
            rfl
        | cons g rest =>
            simp only [runGroups] at h
            split at h
            next r1 st1 heq =>
              cases h
              have := groupCheckpoint_state_frames env out st
              rw [heq] at this
              exact this
            next st1 heq =>
              have hcf : st1.frames = st.frames := by
                have := groupCheckpoint_state_frames env out st
                rw [heq] at this
                exact this
              split at h
              next r2 st2 heq2 =>
                cases h
                have h2 := ihps _ _ _ _ _ _ heq2
                exact h2.trans hcf
              next out2 inp2 st2 heq2 =>
                have h2 := ihps _ _ _ _ _ _ heq2
                have h3 := ihg _ _ _ _ _ _ h
                exact (h3.trans h2).trans hcf
              next heq2 => simp at h
              next heq2 => simp at h
      · -- pipeline loop
        intro ps out inp st r st' h
        cases ps with
        | nil =>
            simp only [runPipelines] at h
            cases h
            rfl
        | cons p rest =>
            simp only [runPipelines] at h
            split at h
            next r1 st1 heq =>
              cases h
              have := pipelineCheckpoint_state_frames out st
              rw [heq] at this
              exact this
            next st1 heq =>
              have hcf : st1.frames = st.frames := by
                have := pipelineCheckpoint_state_frames out st
                rw [heq] at this
                exact this
              split at h
              next r2 st2 heq2 =>
                have h2 := ihp _ _ _ _ _ heq2
                have h3 := ihps _ _ _ _ _ _ h
                have h4 : (pushEv Event.pipelineStart st1).frames = st1.frames := rfl
                exact ((h3.trans h2).trans h4).trans hcf
              next heq2 => simp at h
              next heq2 => simp at h
      · -- run_pipeline
        intro cs inp st r st' h
        cases cs with
        | nil =>
            simp only [run_pipeline] at h
            cases h
            rfl
        | cons item rest =>
            cases item with
            | expr id =>
                simp only [run_pipeline] at h
                split at h
                next e heq =>
                  cases h
                  rfl
                next vals heq =>
                  exact (ihp _ _ _ _ _ h).trans
                    (extState_frames st (.exprEval id) (env.run_expression_block id))
            | internal id =>
                simp only [run_pipeline] at h
                split at h
                next e heq =>
                  cases h
                  rfl
                next vals heq =>
                  exact (ihp _ _ _ _ _ h).trans
                    (extState_frames st (.internalCmd id inp) (env.run_internal_command id inp))
            | errorCmd e =>
                simp only [run_pipeline] at h
                cases h
                rfl
            | dynamic call =>
                simp only [run_pipeline] at h
                split at h
                next e st1 heq =>
                  cases h
                  have := evalPositional_frames env call.positional st
                  rw [heq] at this
                  exact this
                next args st1 heq =>
                  have hargs : st1.frames = st.frames := by
                    have := evalPositional_frames env call.positional st
                    rw [heq] at this
                    exact this
                  split at h
                  next b heqh =>
                    split at h
                    next heq3 => simp at h
                    next st2 heq3 =>
                      split at h
                      next r3 st3 heq4 =>
                        cases h
                        have hbp := bindParams_frames _ _ _ _ heq3
                        have hb := ihb _ _ _ _ _ heq4
                        have hen1 : (enter_scope st1).frames.length = st1.frames.length + 1 := rfl
                        have hen2 : (enter_scope st1).frames.drop 1 = st1.frames := rfl
                        have hlen : st3.frames.length = st1.frames.length + 1 :=
                          hb.1.trans (hbp.1.trans hen1)
                        have hdrop : st3.frames.drop 1 = st1.frames :=
                          hb.2.trans (hbp.2.trans hen2)
                        have : (exit_scope st3).frames = st3.frames.drop 1 := by
                          rw [exit_scope_frames, List.drop_one]
                        rw [this, hdrop]
                        exact hargs
                      next heq4 => simp at h
                      next heq4 => simp at h
                  next v span heqh =>
                    split at h
                    next value heqv =>
                      split at h
                      next cb heqval =>
                        split at h
                        next heq3 => simp at h
                        next st2 heq3 =>
                          split at h
                          next r3 st3 heq4 =>
                            cases h
                            have hbp := bindParams_frames _ _ _ _ heq3
                            have hav := add_vars_frames cb.captured (enter_scope st1)
                            have hb := ihb _ _ _ _ _ heq4
                            have hen1 : (enter_scope st1).frames.length = st1.frames.length + 1 := rfl
                            have hen2 : (enter_scope st1).frames.drop 1 = st1.frames := rfl
                            have hdrop : st3.frames.drop 1 = st1.frames :=
                              hb.2.trans (hbp.2.trans (hav.2.trans hen2))
                            have : (exit_scope st3).frames = st3.frames.drop 1 := by
                              rw [exit_scope_frames, List.drop_one]
                            rw [this, hdrop]
                            exact hargs
                          next heq4 => simp at h
                          next heq4 => simp at h
                      next heqval =>
                        cases h
                        exact hargs
                    next heqv =>
                      cases h
                      exact hargs
                  next oid heqh =>
                    cases h
                    exact hargs



/-- C1 counterexample: a pipeline that is the last of its group (here the
only pipeline of the only group) yields a stream whose first item is an
in-band error value, yet run_block returns it as a successful stream, not
as the error e0 the claim demands. -/
theorem run_block_trailing_inband_error_not_aborted :
    RRes.resOf (run_block envA 10 (.mk [] [] [.mk [.mk [.expr 0]]]) [] st0) =
      some (.ok [errVal]) ∧
    RRes.resOf (run_block envA 10 (.mk [] [] [.mk [.mk [.expr 0]]]) [] st0) ≠
      some (.error e0) := by
  constructor
  · rfl
  · intro hcontra
    rw [show RRes.resOf (run_block envA 10 (.mk [] [] [.mk [.mk [.expr 0]]]) [] st0) =
        some (.ok [errVal]) from rfl] at hcontra
    simp at hcontra

/-- C1 (amended): if a pipeline that is not the last of its group yields a
stream whose first item is an in-band error value, then run_block aborts
with exactly that error at the checkpoint before the next pipeline, and no
subsequent pipeline or group is executed: the result and final state
(trace included) are those of the abort point, whatever the following
pipeline, the rest of the group and the remaining groups are. -/
theorem run_block_inband_error_aborts (env : Env) (f : Nat) (bp defs : List String)
    (p q : Pipeline) (qs : List Pipeline) (gs : List Group)
    (inp s : ValueIterator) (st st₁ : EvalState) (v : Value) (e : ShellError)
    (hv : v.value = .errorV e)
    (hrun : run_pipeline env (f + 1) p.list inp
        (pushEv .pipelineStart (addDefinitions defs st)) = .ok (.ok (v :: s)) st₁) :
    run_block env (f + 1 + 1 + 1 + 1) (.mk bp defs (.mk (p :: q :: qs) :: gs)) inp st =
      .ok (.error e) st₁ := by
  simp only [run_block, Block.blk_groups_mk, Block.definitions_mk]
  simp only [runGroups, groupCheckpoint_empty, Group.pipelines_mk]
  simp only [runPipelines, pipelineCheckpoint_empty]
  rw [hrun]
  dsimp only
  rw [pipelineCheckpoint_inband v s st₁ e hv]

/-- C1 witness: concrete instance of the amended claim; the first pipeline
evaluates expression 0 to an in-band error value, the second pipeline is
never reached. -/
theorem run_block_inband_error_aborts_witness :
    run_block envA 5 (.mk [] [] [.mk [.mk [.expr 0], .mk [.expr 1]]]) [] st0 =
      .ok (.error e0) ⟨[⟨[], []⟩], [], false, [.pipelineStart, .exprEval 0]⟩ :=
  run_block_inband_error_aborts envA 1 [] [] (.mk [.expr 0]) (.mk [.expr 1]) [] []
    [] [] st0 ⟨[⟨[], []⟩], [], false, [.pipelineStart, .exprEval 0]⟩ errVal e0 rfl rfl

/-- C2 counterexample: the first pipeline records a sink error but produces
an empty stream, so the checkpoint before the next pipeline inspects
nothing: the sink is not drained, the run is not aborted, and the final
sink still holds the error. -/
theorem run_block_sink_error_after_empty_output_not_drained :
    run_block envA 10 (.mk [] [] [.mk [.mk [.internal 3], .mk [.expr 1]]]) [] st0 =
      .ok (.ok [v5]) ⟨[⟨[], []⟩], [eSink], false,
        [.pipelineStart, .internalCmd 3 [], .pipelineStart, .exprEval 1]⟩ ∧
    (Except.ok [v5] : Except ShellError ValueIterator) ≠ .error eSink ∧
    ([eSink] : List ShellError) ≠ [] := by
  refine ⟨rfl, ?_, ?_⟩ <;> simp

/-- C2 (amended): whenever a checkpoint actually inspects a stream (the
previous pipeline output was non-empty, or the auto-format command ran on
the previous group output) whose pulled first item is not an in-band error
value, a non-empty error sink is drained and run_block aborts with the
first recorded error; the state after the abort has an empty sink.  Stated
for the pipeline boundary through run_block and for the group boundary
through groupCheckpoint, the latter both when the auto-format call's output
is exhausted and when it produced a non-error item. -/
theorem run_block_drains_sink_at_inspecting_checkpoint :
    (∀ (env : Env) (f : Nat) (bp defs : List String) (p q : Pipeline)
        (qs : List Pipeline) (gs : List Group) (inp s : ValueIterator)
        (st st₁ : EvalState) (v : Value) (err : ShellError) (more : List ShellError),
      isErrorValue v = false →
      st₁.errors = err :: more →
      run_pipeline env (f + 1) p.list inp
          (pushEv .pipelineStart (addDefinitions defs st)) = .ok (.ok (v :: s)) st₁ →
      run_block env (f + 1 + 1 + 1 + 1) (.mk bp defs (.mk (p :: q :: qs) :: gs)) inp st =
        .ok (.error err) { st₁ with errors := [] }) ∧
    (∀ (env : Env) (s : ValueIterator) (st : EvalState) (os : OutputStream)
        (ne : List ShellError) (cc : Bool) (err : ShellError) (more : List ShellError),
      s.isEmpty = false →
      get_command env st "autoview" = true →
      env.run_command s = ⟨.ok os, ne, cc⟩ →
      try_next os = .ok none →
      st.errors ++ ne = err :: more →
      groupCheckpoint env (.ok s) st = .early (.error err)
        { st with
          errors := []
          ctrl_c := st.ctrl_c || cc
          trace := st.trace ++ [.autoviewRun s] }) ∧
    (∀ (env : Env) (s : ValueIterator) (st : EvalState) (os : OutputStream)
        (ne : List ShellError) (cc : Bool) (v : Value) (err : ShellError)
        (more : List ShellError),
      s.isEmpty = false →
      get_command env st "autoview" = true →
      env.run_command s = ⟨.ok os, ne, cc⟩ →
      try_next os = .ok (some v) →
      isErrorValue v = false →
      st.errors ++ ne = err :: more →
      groupCheckpoint env (.ok s) st = .early (.error err)
        { st with
          errors := []
          ctrl_c := st.ctrl_c || cc
          trace := st.trace ++ [.autoviewRun s] }) := by
  refine ⟨?_, ?_, ?_⟩
  · intro env f bp defs p q qs gs inp s st st₁ v err more hv herr hrun
    simp only [run_block, Block.blk_groups_mk, Block.definitions_mk]
    simp only [runGroups, groupCheckpoint_empty, Group.pipelines_mk]
    simp only [runPipelines, pipelineCheckpoint_empty]
    rw [hrun]
    dsimp only
    rw [pipelineCheckpoint_nonerror v s st₁ hv, herr]
  · intro env s st os ne cc err more hs hreg hcmd htn herr
    simp only [groupCheckpoint]
    rw [hs, hreg]
    simp [hcmd, extState, htn, herr]
  · intro env s st os ne cc v err more hs hreg hcmd htn hv herr
    simp only [groupCheckpoint]
    rw [hs, hreg]
    cases hval : v.value with
    | errorV e => simp [isErrorValue, hval] at hv
    | blockV cb => simp [hcmd, extState, htn, hval, herr]
    | prim n => simp [hcmd, extState, htn, hval, herr]

/-- C2 witness: concrete instances of the three conjuncts: a pipeline whose
internal command succeeds with a value while appending a sink error; a
group boundary whose autoview call appends a sink error and yields nothing;
and a group boundary whose autoview call appends a sink error while
yielding a plain item. -/
theorem run_block_drains_sink_at_inspecting_checkpoint_witness :
    run_block envA 5 (.mk [] [] [.mk [.mk [.internal 0], .mk [.expr 1]]]) [] st0 =
      .ok (.error eSink) ⟨[⟨[], []⟩], [], false, [.pipelineStart, .internalCmd 0 []]⟩ ∧
    groupCheckpoint envB (.ok [v5]) st0 = .early (.error eSink)
      ⟨[⟨[], []⟩], [], false, [.autoviewRun [v5]]⟩ ∧
    groupCheckpoint envD (.ok [v5]) st0 = .early (.error eSink)
      ⟨[⟨[], []⟩], [], false, [.autoviewRun [v5]]⟩ := by
  refine ⟨?_, ?_, ?_⟩
  · exact run_block_drains_sink_at_inspecting_checkpoint.1 envA 1 [] []
      (.mk [.internal 0]) (.mk [.expr 1]) [] [] [] []
      st0 ⟨[⟨[], []⟩], [eSink], false, [.pipelineStart, .internalCmd 0 []]⟩
      v5 eSink [] rfl rfl rfl
  · exact run_block_drains_sink_at_inspecting_checkpoint.2.1 envB [v5] st0 [] [eSink]
      false eSink [] rfl rfl rfl rfl rfl
  · exact run_block_drains_sink_at_inspecting_checkpoint.2.2 envD [v5] st0 [.ok v5]
      [eSink] false v5 eSink [] rfl rfl rfl rfl rfl rfl

/-- C3 counterexample: the cancellation flag is set for the whole run, but
the first pipeline produces an empty stream, so the checkpoint before the
second pipeline polls nothing: the second pipeline still executes and
run_block returns its non-empty output rather than an empty stream. -/
theorem run_block_cancellation_with_empty_output_not_detected :
    run_block envA 10 (.mk [] [] [.mk [.mk [.expr 2], .mk [.expr 1]]]) [] st0c =
      .ok (.ok [v5]) ⟨[⟨[], []⟩], [], true,
        [.pipelineStart, .exprEval 2, .pipelineStart, .exprEval 1]⟩ ∧
    (Except.ok [v5] : Except ShellError ValueIterator) ≠ .ok empty_value_iterator := by
  refine ⟨rfl, ?_⟩
  simp [empty_value_iterator]

/-- C3 (amended): if a checkpoint inspects a stream item - the first item
of a non-empty previous output at a pipeline boundary, or the first item
pulled from the auto-format command's output at a group boundary - and that
item is not an in-band error value, the error sink is empty and the
cancellation flag reads set, then run_block returns an empty stream with no
error and no further pipelines or groups execute (the result and final
state do not depend on them).  With an empty previous output, an unregistered
auto-format command, or an auto-format output with no first item, the flag
is not polled and execution continues; an in-band error or a sink error
takes precedence over cancellation. -/
theorem run_block_cancellation_clean_stop :
    (∀ (env : Env) (f : Nat) (bp defs : List String) (p q : Pipeline)
        (qs : List Pipeline) (gs : List Group) (inp s : ValueIterator)
        (st st₁ : EvalState) (v : Value),
      isErrorValue v = false →
      st₁.errors = [] →
      st₁.ctrl_c = true →
      run_pipeline env (f + 1) p.list inp
          (pushEv .pipelineStart (addDefinitions defs st)) = .ok (.ok (v :: s)) st₁ →
      run_block env (f + 1 + 1 + 1 + 1) (.mk bp defs (.mk (p :: q :: qs) :: gs)) inp st =
        .ok (.ok empty_value_iterator) st₁) ∧
    (∀ (env : Env) (f : Nat) (bp defs : List String) (p : Pipeline) (g2 : Group)
        (gs : List Group) (inp : ValueIterator) (st st₁ : EvalState) (w : Value)
        (ws : ValueIterator) (os : OutputStream) (ne : List ShellError) (cc : Bool)
        (v : Value),
      run_pipeline env (f + 1) p.list inp
          (pushEv .pipelineStart (addDefinitions defs st)) = .ok (.ok (w :: ws)) st₁ →
      get_command env st₁ "autoview" = true →
      env.run_command (w :: ws) = ⟨.ok os, ne, cc⟩ →
      try_next os = .ok (some v) →
      isErrorValue v = false →
      st₁.errors ++ ne = [] →
      (st₁.ctrl_c || cc) = true →
      run_block env (f + 1 + 1 + 1 + 1) (.mk bp defs (.mk [p] :: g2 :: gs)) inp st =
        .ok (.ok empty_value_iterator)
          { st₁ with
            errors := []
            ctrl_c := true
            trace := st₁.trace ++ [.autoviewRun (w :: ws)] }) := by
  constructor
  · intro env f bp defs p q qs gs inp s st st₁ v hv herr hcc hrun
    simp only [run_block, Block.blk_groups_mk, Block.definitions_mk]
    simp only [runGroups, groupCheckpoint_empty, Group.pipelines_mk]
    simp only [runPipelines, pipelineCheckpoint_empty]
    rw [hrun]
    dsimp only
    rw [pipelineCheckpoint_nonerror v s st₁ hv, herr, hcc]
    simp
  · intro env f bp defs p g2 gs inp st st₁ w ws os ne cc v hrun hreg hcmd htn hv
      hsink hcc
    simp only [run_block, Block.blk_groups_mk, Block.definitions_mk]
    simp only [runGroups, Group.pipelines_mk, groupCheckpoint_empty]
    simp only [runPipelines, pipelineCheckpoint_empty]
    rw [hrun]
    dsimp only
    rw [groupCheckpoint_autoview_cancel env w ws st₁ os ne cc v hreg hcmd htn hv
      hsink hcc]

/-- C3 witness: concrete instances of both conjuncts: a run started with
the flag set whose first pipeline produces a value stops cleanly before the
second pipeline; and a run started with the flag set whose only pipeline of
group one produces a value stops cleanly at the group boundary after the
autoview call, before the second group. -/
theorem run_block_cancellation_clean_stop_witness :
    run_block envA 5 (.mk [] [] [.mk [.mk [.internal 1], .mk [.expr 1]]]) [] st0c =
      .ok (.ok empty_value_iterator)
        ⟨[⟨[], []⟩], [], true, [.pipelineStart, .internalCmd 1 []]⟩ ∧
    run_block envC 5 (.mk [] [] [.mk [.mk [.internal 1]], .mk [.mk [.expr 1]]]) [] st0c =
      .ok (.ok empty_value_iterator)
        ⟨[⟨[], []⟩], [], true,
          [.pipelineStart, .internalCmd 1 [], .autoviewRun [v5]]⟩ := by
  constructor
  · exact run_block_cancellation_clean_stop.1 envA 1 [] [] (.mk [.internal 1])
      (.mk [.expr 1]) [] [] [] [] st0c
      ⟨[⟨[], []⟩], [], true, [.pipelineStart, .internalCmd 1 []]⟩ v5 rfl rfl rfl rfl
  · exact run_block_cancellation_clean_stop.2 envC 1 [] [] (.mk [.internal 1])
      (.mk [.mk [.expr 1]]) [] [] st0c
      ⟨[⟨[], []⟩], [], true, [.pipelineStart, .internalCmd 1 []]⟩ v5 [] [.ok v5] []
      false v5 rfl rfl rfl rfl rfl rfl rfl

/-- C4: for every Dynamic node invocation in run_pipeline the frame pushed
by enter_scope is popped again on every exit path, including the path where
the recursive run_block on the closure body returns an error: whenever such
a pipeline finishes, the caller's scope frame stack equals its stack before
the call. -/
theorem run_pipeline_dynamic_scope_balanced (env : Env) (fuel : Nat) (call : Call)
    (rest : List ClassifiedCommand) (inp : ValueIterator) (st : EvalState)
    (r : Except ShellError ValueIterator) (st' : EvalState)
    (h : run_pipeline env fuel (.dynamic call :: rest) inp st = .ok r st') :
    st'.frames = st.frames :=
  (frames_main env fuel).2.2.2 _ _ _ _ _ h

/-- C4 witness: a Dynamic call whose closure body fails with an error; the
frame stack after the call equals the stack before it. -/
theorem run_pipeline_dynamic_scope_balanced_witness :
    run_pipeline envA 10 [.dynamic (.mk (.blk (.mk [] [] [.mk [.mk [.errorCmd e0]]])) 0 none)]
      [] st0 = .ok (.error e0) ⟨[⟨[], []⟩], [], false, [.pipelineStart]⟩ ∧
    (⟨[⟨[], []⟩], [], false, [.pipelineStart]⟩ : EvalState).frames = st0.frames :=
  ⟨rfl, run_pipeline_dynamic_scope_balanced envA 10
    (.mk (.blk (.mk [] [] [.mk [.mk [.errorCmd e0]]])) 0 none) [] [] st0 (.error e0)
    ⟨[⟨[], []⟩], [], false, [.pipelineStart]⟩ rfl⟩

/-- C5: a Dynamic node terminates its pipeline immediately: the run of a
pipeline starting with a Dynamic node does not depend on the nodes that
follow it, and when the head resolves to a closure (an inline block, or a
variable bound to a block value) the pipeline returns exactly the result
(success stream or error) of the recursive run_block on the closure body,
in the state left by that run with the scope frame popped. -/
theorem run_pipeline_dynamic_terminates_pipeline :
    (∀ (env : Env) (fuel : Nat) (call : Call) (rest : List ClassifiedCommand)
        (inp : ValueIterator) (st : EvalState),
      run_pipeline env fuel (.dynamic call :: rest) inp st =
        run_pipeline env fuel [.dynamic call] inp st) ∧
    (∀ (env : Env) (f : Nat) (call : Call) (b : Block) (rest : List ClassifiedCommand)
        (inp : ValueIterator) (st : EvalState) (args : List (List Value))
        (st₁ st₂ : EvalState) (r : Except ShellError ValueIterator) (st₃ : EvalState),
      call.head = .blk b →
      evalPositional env call.positional st = (.ok args, st₁) →
      bindParams b.params args (enter_scope st₁) = some st₂ →
      run_block env f b inp st₂ = .ok r st₃ →
      run_pipeline env (f + 1) (.dynamic call :: rest) inp st = .ok r (exit_scope st₃)) ∧
    (∀ (env : Env) (f : Nat) (call : Call) (v : String) (sp : Nat) (cb : CapturedBlock)
        (rest : List ClassifiedCommand) (inp : ValueIterator) (st : EvalState)
        (args : List (List Value)) (st₁ : EvalState) (val : Value) (st₂ : EvalState)
        (r : Except ShellError ValueIterator) (st₃ : EvalState),
      call.head = .var v sp →
      evalPositional env call.positional st = (.ok args, st₁) →
      get_var v st₁ = some val →
      val.value = .blockV cb →
      bindParams cb.block.params args (add_vars cb.captured (enter_scope st₁)) = some st₂ →
      run_block env f cb.block inp st₂ = .ok r st₃ →
      run_pipeline env (f + 1) (.dynamic call :: rest) inp st = .ok r (exit_scope st₃)) := by
  refine ⟨?_, ?_, ?_⟩
  · intro env fuel call rest inp st
    cases fuel <;> rfl
  · intro env f call b rest inp st args st₁ st₂ r st₃ hhead hargs hbind hrun
    simp only [run_pipeline]
    rw [hargs]
    dsimp only
    rw [hhead]
    dsimp only
    rw [hbind]
    dsimp only
    rw [hrun]
  · intro env f call v sp cb rest inp st args st₁ val st₂ r st₃ hhead hargs hget hval
      hbind hrun
    simp only [run_pipeline]
    rw [hargs]
    dsimp only
    rw [hhead]
    dsimp only
    rw [hget]
    dsimp only
    rw [hval]
    dsimp only
    rw [hbind]
    dsimp only
    rw [hrun]

/-- C5 witness: concrete Dynamic calls through an inline block head and a
variable head bound to a captured closure; in both runs a node after the
Dynamic node is present and never executed, and the pipeline returns the
closure body's result. -/
theorem run_pipeline_dynamic_terminates_pipeline_witness :
    run_pipeline envA 6 [.dynamic (.mk (.blk Bbody) 0 none), .expr 0] [] st0 =
      .ok (.ok [v5]) ⟨[⟨[], []⟩], [], false, [.pipelineStart, .exprEval 1]⟩ ∧
    run_pipeline envA 6 [.dynamic (.mk (.var "g" 7) 0 none), .expr 0] [] st5 =
      .ok (.ok [v5]) ⟨[⟨[("g", .mk (.blockV (.mk Bbody [("k", v5)])) 0)], []⟩], [], false,
        [.pipelineStart, .exprEval 1]⟩ := by
  constructor
  · exact run_pipeline_dynamic_terminates_pipeline.2.1 envA 5 (.mk (.blk Bbody) 0 none)
      Bbody [.expr 0] [] st0 [] st0 (enter_scope st0) (.ok [v5])
      ⟨[⟨[], []⟩, ⟨[], []⟩], [], false, [.pipelineStart, .exprEval 1]⟩ rfl rfl rfl rfl
  · exact run_pipeline_dynamic_terminates_pipeline.2.2 envA 5 (.mk (.var "g" 7) 0 none)
      "g" 7 (.mk Bbody [("k", v5)]) [.expr 0] [] st5 [] st5
      (.mk (.blockV (.mk Bbody [("k", v5)])) 0)
      (add_vars [("k", v5)] (enter_scope st5)) (.ok [v5]) stC5v rfl rfl rfl rfl rfl rfl

/-- C6: a Dynamic node whose head is neither an inline block literal nor a
variable bound to a block value yields a hard error, never a silent no-op,
and the error labels distinguish a head that resolved to a non-closure
value from a variable name not found in scope. -/
theorem run_pipeline_dynamic_resolution_errors :
    (∀ (env : Env) (f : Nat) (call : Call) (oid : Nat) (rest : List ClassifiedCommand)
        (inp : ValueIterator) (st : EvalState) (args : List (List Value)) (st₁ : EvalState),
      call.head = .other oid →
      evalPositional env call.positional st = (.ok args, st₁) →
      run_pipeline env (f + 1) (.dynamic call :: rest) inp st =
        .ok (.error (labeled_error
          "Dynamic commands must start with a block (or variable pointing to a block)"
          "needs to be a block" call.headSpan)) st₁) ∧
    (∀ (env : Env) (f : Nat) (call : Call) (v : String) (sp : Nat)
        (rest : List ClassifiedCommand) (inp : ValueIterator) (st : EvalState)
        (args : List (List Value)) (st₁ : EvalState) (val : Value),
      call.head = .var v sp →
      evalPositional env call.positional st = (.ok args, st₁) →
      get_var v st₁ = some val →
      (∀ cb, val.value ≠ .blockV cb) →
      run_pipeline env (f + 1) (.dynamic call :: rest) inp st =
        .ok (.error (labeled_error
          "Dynamic commands must start with a block (or variable pointing to a block)"
          "needs to be a block" call.headSpan)) st₁) ∧
    (∀ (env : Env) (f : Nat) (call : Call) (v : String) (sp : Nat)
        (rest : List ClassifiedCommand) (inp : ValueIterator) (st : EvalState)
        (args : List (List Value)) (st₁ : EvalState),
      call.head = .var v sp →
      evalPositional env call.positional st = (.ok args, st₁) →
      get_var v st₁ = none →
      run_pipeline env (f + 1) (.dynamic call :: rest) inp st =
        .ok (.error (labeled_error "Variable not found" "variable not found" sp)) st₁) := by
  refine ⟨?_, ?_, ?_⟩
  · intro env f call oid rest inp st args st₁ hhead hargs
    simp only [run_pipeline]
    rw [hargs]
    dsimp only
    rw [hhead]
  · intro env f call v sp rest inp st args st₁ val hhead hargs hget hval
    simp only [run_pipeline]
    rw [hargs]
    dsimp only
    rw [hhead]
    dsimp only
    rw [hget]
    dsimp only
    cases hv : val.value with
    | errorV e => rfl
    | blockV cb => exact absurd hv (hval cb)
    | prim n => rfl
  · intro env f call v sp rest inp st args st₁ hhead hargs hget
    simp only [run_pipeline]
    rw [hargs]
    dsimp only
    rw [hhead]
    dsimp only
    rw [hget]

/-- C6 witness: three concrete Dynamic calls: a non-block non-variable
head, a variable bound to a plain value, and an unknown variable name; each
yields the corresponding labeled error. -/
theorem run_pipeline_dynamic_resolution_errors_witness :
    run_pipeline envA 4 [.dynamic (.mk (.other 9) 11 none)] [] st0 =
      .ok (.error (labeled_error
        "Dynamic commands must start with a block (or variable pointing to a block)"
        "needs to be a block" 11)) st0 ∧
    run_pipeline envA 4 [.dynamic (.mk (.var "h" 12) 13 none)] []
        ⟨[⟨[("h", v5)], []⟩], [], false, []⟩ =
      .ok (.error (labeled_error
        "Dynamic commands must start with a block (or variable pointing to a block)"
        "needs to be a block" 13)) ⟨[⟨[("h", v5)], []⟩], [], false, []⟩ ∧
    run_pipeline envA 4 [.dynamic (.mk (.var "nope" 14) 15 none)] [] st0 =
      .ok (.error (labeled_error "Variable not found" "variable not found" 14)) st0 := by
  refine ⟨?_, ?_, ?_⟩
  · exact run_pipeline_dynamic_resolution_errors.1 envA 3 (.mk (.other 9) 11 none) 9 []
      [] st0 [] st0 rfl rfl
  · exact run_pipeline_dynamic_resolution_errors.2.1 envA 3 (.mk (.var "h" 12) 13 none)
      "h" 12 [] [] ⟨[⟨[("h", v5)], []⟩], [], false, []⟩ []
      ⟨[⟨[("h", v5)], []⟩], [], false, []⟩ v5 rfl rfl rfl (fun cb h => nomatch h)
  · exact run_pipeline_dynamic_resolution_errors.2.2 envA 3 (.mk (.var "nope" 14) 15 none)
      "nope" 14 [] [] st0 [] st0 rfl rfl rfl



/-- C7 counterexample: when the first group has no pipelines, the first
pipeline of the second group still receives the external input stream (the
echoing internal command observes [v5], not an empty stream), although it
is not the first pipeline of the first group. -/
theorem run_block_input_reaches_second_group_when_first_group_empty :
    run_block envA 10 (.mk [] [] [.mk [], .mk [.mk [.internal 2]]]) [v5] st0 =
      .ok (.ok [v5]) ⟨[⟨[], []⟩], [], false, [.pipelineStart, .internalCmd 2 [v5]]⟩ ∧
    Event.internalCmd 2 [v5] ≠ Event.internalCmd 2 [] := by
  refine ⟨rfl, ?_⟩
  intro h
  injection h with h1 h2
  exact List.noConfusion h2

/-- C7 (amended): the external input stream is handed only to the first
pipeline that actually runs (here the first pipeline of the first group that
contains one); every pipeline run after it, within the same group or in a
later group, receives an empty input stream: in a block of two groups with
pipelines p1, p2 and p3, the runs of p2 and p3 take empty_value_iterator as
input, and run_block returns the last pipeline's result. -/
theorem run_block_original_input_only_first_pipeline (env : Env) (f : Nat)
    (bp defs : List String) (p1 p2 p3 : Pipeline) (inp : ValueIterator)
    (st stA stB stC stD stE : EvalState) (r1 r2 r3 : Except ShellError ValueIterator)
    (h1 : run_pipeline env (f + 1 + 1) p1.list inp
        (pushEv .pipelineStart (addDefinitions defs st)) = .ok r1 stA)
    (h2 : pipelineCheckpoint r1 stA = .cont stB)
    (h3 : run_pipeline env (f + 1) p2.list empty_value_iterator
        (pushEv .pipelineStart stB) = .ok r2 stC)
    (h4 : groupCheckpoint env r2 stC = .cont stD)
    (h5 : run_pipeline env (f + 1) p3.list empty_value_iterator
        (pushEv .pipelineStart stD) = .ok r3 stE) :
    run_block env (f + 1 + 1 + 1 + 1 + 1) (.mk bp defs [.mk [p1, p2], .mk [p3]]) inp st =
      .ok r3 stE := by
  simp only [run_block, Block.blk_groups_mk, Block.definitions_mk]
  simp only [runGroups, Group.pipelines_mk, groupCheckpoint_empty]
  simp only [runPipelines, pipelineCheckpoint_empty]
  rw [h1]
  dsimp only
  rw [h2]
  dsimp only
  rw [h3]
  dsimp only
  rw [h4]
  dsimp only
  rw [h5]

/-- C7 witness: two groups of pipelines built from an internal command; the
trace records that the first pipeline's dispatcher call received the
external input [v5] and the two later pipelines (second of group one, first
of group two) received empty input. -/
theorem run_block_original_input_only_first_pipeline_witness :
    run_block envA 6
      (.mk [] [] [.mk [.mk [.internal 5], .mk [.internal 5]], .mk [.mk [.internal 5]]])
      [v5] st0 =
      .ok (.ok []) ⟨[⟨[], []⟩], [], false,
        [.pipelineStart, .internalCmd 5 [v5], .pipelineStart, .internalCmd 5 [],
         .pipelineStart, .internalCmd 5 []]⟩ :=
  run_block_original_input_only_first_pipeline envA 1 [] []
    (.mk [.internal 5]) (.mk [.internal 5]) (.mk [.internal 5]) [v5] st0
    ⟨[⟨[], []⟩], [], false, [.pipelineStart, .internalCmd 5 [v5]]⟩
    ⟨[⟨[], []⟩], [], false, [.pipelineStart, .internalCmd 5 [v5]]⟩
    ⟨[⟨[], []⟩], [], false,
      [.pipelineStart, .internalCmd 5 [v5], .pipelineStart, .internalCmd 5 []]⟩
    ⟨[⟨[], []⟩], [], false,
      [.pipelineStart, .internalCmd 5 [v5], .pipelineStart, .internalCmd 5 []]⟩
    ⟨[⟨[], []⟩], [], false,
      [.pipelineStart, .internalCmd 5 [v5], .pipelineStart, .internalCmd 5 [],
       .pipelineStart, .internalCmd 5 []]⟩
    (.ok []) (.ok []) (.ok []) rfl rfl rfl rfl rfl

/-- C8: the auto-formatting command is invoked exactly at a group boundary
whose previous output is a non-empty stream with the command registered,
and it then receives that output as its input (first conjunct, as a trace
equation over every branch of the group checkpoint); it is never invoked at
a pipeline boundary (second conjunct), never after the last group (third
conjunct: the group loop returns the final output untouched), and never
before the first group (fourth conjunct: the initial empty output skips the
checkpoint without invoking anything). -/
theorem autoview_invoked_exactly_between_groups :
    (∀ (env : Env) (out : Except ShellError ValueIterator) (st : EvalState),
      (groupCheckpoint env out st).state.trace =
        st.trace ++ (match out with
          | .ok s =>
              if s.isEmpty then []
              else if get_command env st "autoview" then [Event.autoviewRun s] else []
          | .error _ => [])) ∧
    (∀ (out : Except ShellError ValueIterator) (st : EvalState),
      (pipelineCheckpoint out st).state.trace = st.trace) ∧
    (∀ (env : Env) (f : Nat) (out : Except ShellError ValueIterator)
        (inp : ValueIterator) (st : EvalState),
      runGroups env (f + 1) [] out inp st = .ok out st) ∧
    (∀ (env : Env) (st : EvalState),
      groupCheckpoint env (.ok empty_value_iterator) st = .cont st) := by
  refine ⟨?_, ?_, ?_, ?_⟩
  · intro env out st
    unfold groupCheckpoint
    cases out with
    | error e => simp
    | ok s =>
        cases hs : s.isEmpty with
        | true => simp [hs]
        | false =>
            by_cases hr : get_command env st "autoview"
            · simp only [hs, hr, Bool.false_eq_true, if_false, if_true]
              try dsimp only
              repeat' split
              all_goals simp [extState]
            · simp [hs, hr]
  · intro out st
    unfold pipelineCheckpoint
    repeat' split
    all_goals rfl
  · intro env f out inp st
    rfl
  · intro env st
    rfl

/-- C9: arity mismatch between declared positional parameters and evaluated
arguments raises no error: binding with no arguments or no parameters
succeeds leaving the state unchanged (surplus silently ignored), each
zipped pair binds the parameter in declaration order to the argument's
first element, and binding depends only on the zippable common prefix of
the two lists. -/
theorem bindParams_zip_prefix_no_arity_error :
    (∀ (ps : List String) (st : EvalState), bindParams ps [] st = some st) ∧
    (∀ (vss : List (List Value)) (st : EvalState), bindParams [] vss st = some st) ∧
    (∀ (p : String) (ps : List String) (v : Value) (vs : List Value)
        (vss : List (List Value)) (st : EvalState),
      bindParams (p :: ps) ((v :: vs) :: vss) st = bindParams ps vss (add_var p v st)) ∧
    (∀ (ps : List String) (vss : List (List Value)) (st : EvalState),
      bindParams ps vss st = bindParams (ps.take vss.length) (vss.take ps.length) st) := by
  refine ⟨?_, ?_, ?_, ?_⟩
  · intro ps st
    cases ps <;> rfl
  · intro vss st
    cases vss <;> rfl
  · intro p ps v vs vss st
    rfl
  · intro ps
    induction ps with
    | nil => intro vss st; cases vss <;> rfl
    | cons p ps ih =>
        intro vss st
        cases vss with
        | nil => rfl
        | cons a rest =>
            cases a with
            | nil => rfl
            | cons v vs =>
                simp only [List.length_cons, List.take_succ_cons, bindParams]
                exact ih rest (add_var p v st)

/-- C10: each zipped positional parameter is bound to element 0 of its
argument vector; the binding is total when every zipped argument vector is
non-empty, and the out-of-bounds branch that models the source's value[0]
indexing panic is reachable: a Dynamic call whose single argument
expression evaluates to an empty stream crashes the run. -/
theorem dynamic_args_zero_indexing :
    (∀ (ps : List String) (vss : List (List Value)) (st : EvalState),
      (∀ a ∈ vss.take ps.length, a ≠ []) → (bindParams ps vss st).isSome = true) ∧
    run_pipeline envA 9 [.dynamic (.mk (.blk (.mk ["x"] [] [])) 0 (some [2]))] [] st0 =
      .crashed := by
  constructor
  · intro ps
    induction ps with
    | nil =>
        intro vss st h
        cases vss <;> rfl
    | cons p ps ih =>
        intro vss st h
        cases vss with
        | nil => rfl
        | cons a rest =>
            cases ha : a with
            | nil =>
                exfalso
                exact h a (by simp [List.take_succ_cons]) ha
            | cons v vs =>
                simp only [bindParams]
                refine ih rest (add_var p v st) ?_
                intro b hb
                refine h b ?_
                simp only [List.length_cons, List.take_succ_cons]
                exact List.mem_cons_of_mem a hb
  · rfl

/-- C10 witness: binding one parameter against one non-empty argument
vector succeeds. -/
theorem dynamic_args_zero_indexing_witness :
    (bindParams ["x"] [[v5]] st0).isSome = true :=
  dynamic_args_zero_indexing.1 ["x"] [[v5]] st0 (by simp)


end EngineP
